import Mathlib

/-!
Shallow embedding of the rehaish-api lease/application/payment lifecycle
(controllers in src/controllers and the lease controller, with the auth
middleware), verified against the natural-language specification.

Entities are rows of the relational store; the store is a record of lists.
Each controller action is a pure function from an optional authenticated
user, the request input and the store to a response (`Except` of an error
envelope) paired with the resulting store.  IDs and dates are naturals
(UUIDs and timestamps are only compared for equality / order in the code).
-/

/-- Roles carried by the authenticated user (auth middleware). -/
inductive Role where
  | tenant
  | manager
  | admin
deriving DecidableEq

/-- The authenticated caller, as attached by the auth middleware. -/
structure User where
  id : Nat
  role : Role
deriving DecidableEq

/-- ApplicationStatus enum of the Prisma schema. -/
inductive ApplicationStatus where
  | pending
  | approved
  | rejected
  | withdrawn
deriving DecidableEq

/-- String rendering of an application status, as it appears in responses. -/
def ApplicationStatus.str : ApplicationStatus → String
  | .pending => "PENDING"
  | .approved => "APPROVED"
  | .rejected => "REJECTED"
  | .withdrawn => "WITHDRAWN"

/-- LeaseStatus enum of the Prisma schema. -/
inductive LeaseStatus where
  | pendingSignature
  | active
  | terminated
  | completed
deriving DecidableEq

/-- String rendering of a lease status, as it appears in responses. -/
def LeaseStatus.str : LeaseStatus → String
  | .pendingSignature => "PENDING_SIGNATURE"
  | .active => "ACTIVE"
  | .terminated => "TERMINATED"
  | .completed => "COMPLETED"

/-- PaymentStatus enum of the Prisma schema. -/
inductive PaymentStatus where
  | pending
  | completed
  | failed
  | refunded
deriving DecidableEq

/-- PaymentType enum of the Prisma schema. -/
inductive PaymentType where
  | rent
  | securityDeposit
  | applicationFee
  | lateFee
  | maintenanceCharge
  | refund
deriving DecidableEq

/-- PaymentMethod (the model only needs it as an opaque enum field). -/
inductive PaymentMethod where
  | cash
  | bankTransfer
  | card
  | other
deriving DecidableEq

/-- Property row: only the fields the lifecycle logic reads. -/
structure Property where
  id : Nat
  managerId : Nat
deriving DecidableEq

/-- Application row (Prisma model Application). -/
structure Application where
  id : Nat
  propertyId : Nat
  tenantId : Nat
  fullName : String
  email : String
  phoneNumber : String
  message : Option String
  status : ApplicationStatus
deriving DecidableEq

/-- Lease row (Prisma model Lease). -/
structure Lease where
  id : Nat
  propertyId : Nat
  tenantId : Nat
  applicationId : Option Nat
  startDate : Nat
  endDate : Nat
  rentAmount : Nat
  securityDeposit : Nat
  paymentDueDate : Nat
  leaseAgreementUrl : Option String
  status : LeaseStatus
deriving DecidableEq

/-- Payment row (Prisma model Payment). -/
structure Payment where
  id : Nat
  tenantId : Nat
  leaseId : Option Nat
  propertyId : Option Nat
  amount : Nat
  paymentType : PaymentType
  method : PaymentMethod
  status : PaymentStatus
  paymentDate : Nat
  referenceId : Option String
  note : Option String
deriving DecidableEq

/-- The relational store.  `nextId` models the id generator of the
database (fresh row ids). -/
structure Store where
  properties : List Property
  applications : List Application
  leases : List Lease
  payments : List Payment
  nextId : Nat
deriving DecidableEq

/-- The JSON error envelope: HTTP status, machine-readable code and, where
the handler includes it, the entity's current status in the payload. -/
structure ErrorResponse where
  status : Nat
  code : String
  currentStatus : Option String
deriving DecidableEq

/-- Request body of POST applications (CreateApplicationSchema). -/
structure CreateApplicationInput where
  propertyId : Nat
  fullName : String
  email : String
  phoneNumber : String
  message : Option String
deriving DecidableEq

/-- Request body of POST leases (CreateLeaseSchema); the controller reads
`applicationId`, the date range, the amounts and the agreement URL. -/
structure CreateLeaseInput where
  applicationId : Nat
  startDate : Nat
  endDate : Nat
  rentAmount : Nat
  securityDeposit : Nat
  paymentDueDate : Nat
  leaseAgreementUrl : Option String
deriving DecidableEq

/-- Request body of POST payments (CreatePaymentSchema).  The schema has no
tenant field: a caller cannot supply a tenant directly. -/
structure CreatePaymentInput where
  leaseId : Option Nat
  propertyId : Option Nat
  amount : Nat
  paymentType : PaymentType
  method : PaymentMethod
  paymentDate : Nat
  referenceId : Option String
  note : Option String
deriving DecidableEq

deriving instance DecidableEq for Except

/-- Prisma relation filter `property: { managerId }`: some property row
with this id belongs to the manager. -/
def propOwnedBy (s : Store) (propertyId userId : Nat) : Bool :=
  s.properties.any (fun p => decide (p.id = propertyId) && decide (p.managerId = userId))

/-- Error envelope for a missing `req.user` (all handlers). -/
def authRequiredErr : ErrorResponse := ⟨401, "AUTH_REQUIRED", none⟩

/-- Error envelope for a role mismatch (all handlers). -/
def accessDeniedErr : ErrorResponse := ⟨403, "ACCESS_DENIED", none⟩

/-- Query of `prisma.application.findFirst` in createLease: the application
with the requested id, in status APPROVED, on a property of the manager. -/
def approvedAppQuery (applicationId userId : Nat) (s : Store) (a : Application) : Bool :=
  decide (a.id = applicationId) && decide (a.status = ApplicationStatus.approved) &&
    propOwnedBy s a.propertyId userId

/-- Query of `prisma.lease.findFirst` for the date-conflict check in
createLease: an ACTIVE lease of the property whose range satisfies
`startDate <= new.endDate && endDate >= new.startDate`. -/
def activeOverlapQuery (propertyId startDate endDate : Nat) (l : Lease) : Bool :=
  decide (l.propertyId = propertyId) && decide (l.status = LeaseStatus.active) &&
    decide (l.startDate ≤ endDate) && decide (l.endDate ≥ startDate)

/-- The lease row built by `prisma.lease.create` in createLease: property
and tenant copied from the application, status PENDING_SIGNATURE. -/
def mkLease (s : Store) (a : Application) (input : CreateLeaseInput) : Lease :=
  { id := s.nextId
    propertyId := a.propertyId
    tenantId := a.tenantId
    applicationId := some a.id
    startDate := input.startDate
    endDate := input.endDate
    rentAmount := input.rentAmount
    securityDeposit := input.securityDeposit
    paymentDueDate := input.paymentDueDate
    leaseAgreementUrl := input.leaseAgreementUrl
    status := LeaseStatus.pendingSignature }

/-- createLease (leaseController): guards, approved-application lookup,
one-lease-per-application check, ACTIVE-overlap check, then creation. -/
def createLease (user? : Option User) (input : CreateLeaseInput) (s : Store) :
    Except ErrorResponse Lease × Store :=
  match user? with
  | none => (Except.error authRequiredErr, s)
  | some u =>
    if u.role = Role.manager then
      match s.applications.find? (approvedAppQuery input.applicationId u.id s) with
      | none => (Except.error ⟨404, "APPLICATION_NOT_FOUND", none⟩, s)
      | some app =>
        match s.leases.find? (fun l => decide (l.applicationId = some app.id)) with
        | some _ => (Except.error ⟨409, "LEASE_EXISTS", none⟩, s)
        | none =>
          match s.leases.find? (activeOverlapQuery app.propertyId input.startDate input.endDate) with
          | some _ => (Except.error ⟨409, "LEASE_CONFLICT", none⟩, s)
          | none =>
            let lease := mkLease s app input
            (Except.ok lease,
              { s with leases := s.leases ++ [lease], nextId := s.nextId + 1 })
    else (Except.error accessDeniedErr, s)

/-- Statuses a caller may request from updateLeaseStatus (the controller's
`validStatuses` allow-list; the route schema imposes the same set). -/
def validStatuses : List LeaseStatus :=
  [LeaseStatus.active, LeaseStatus.terminated, LeaseStatus.completed]

/-- The `validTransitions` table of updateLeaseStatus. -/
def validTransitions : LeaseStatus → List LeaseStatus
  | .pendingSignature => [LeaseStatus.active, LeaseStatus.terminated]
  | .active => [LeaseStatus.terminated, LeaseStatus.completed]
  | .terminated => []
  | .completed => []

/-- Query of `prisma.lease.findFirst` in updateLeaseStatus: the lease with
the requested id on a property of the manager. -/
def leaseOwnerQuery (leaseId userId : Nat) (s : Store) (l : Lease) : Bool :=
  decide (l.id = leaseId) && propOwnedBy s l.propertyId userId

/-- updateLeaseStatus (leaseController): role guard, requested-status
allow-list, ownership lookup, transition table, then the update. -/
def updateLeaseStatus (user? : Option User) (leaseId : Nat) (reqStatus : LeaseStatus)
    (s : Store) : Except ErrorResponse Lease × Store :=
  match user? with
  | none => (Except.error authRequiredErr, s)
  | some u =>
    if u.role = Role.manager then
      if reqStatus ∈ validStatuses then
        match s.leases.find? (leaseOwnerQuery leaseId u.id s) with
        | none => (Except.error ⟨404, "LEASE_NOT_FOUND", none⟩, s)
        | some lease =>
          if reqStatus ∈ validTransitions lease.status then
            let newLeases := s.leases.map
              (fun l => if l.id = leaseId then { l with status := reqStatus } else l)
            (Except.ok { lease with status := reqStatus }, { s with leases := newLeases })
          else
            (Except.error ⟨400, "INVALID_STATUS_TRANSITION", some lease.status.str⟩, s)
      else (Except.error ⟨400, "INVALID_STATUS", none⟩, s)
    else (Except.error accessDeniedErr, s)

/-- The application row built by `prisma.application.create` in
submitApplication: status PENDING, tenant from the token. -/
def mkApplication (s : Store) (u : User) (input : CreateApplicationInput) : Application :=
  { id := s.nextId
    propertyId := input.propertyId
    tenantId := u.id
    fullName := input.fullName
    email := input.email
    phoneNumber := input.phoneNumber
    message := input.message
    status := ApplicationStatus.pending }

/-- submitApplication (applicationController): role guard, property
existence, duplicate (tenant, property) check regardless of status, then
creation of a PENDING application. -/
def submitApplication (user? : Option User) (input : CreateApplicationInput) (s : Store) :
    Except ErrorResponse Application × Store :=
  match user? with
  | none => (Except.error authRequiredErr, s)
  | some u =>
    if u.role = Role.tenant then
      match s.properties.find? (fun p => decide (p.id = input.propertyId)) with
      | none => (Except.error ⟨404, "PROPERTY_NOT_FOUND", none⟩, s)
      | some _ =>
        match s.applications.find?
            (fun a => decide (a.propertyId = input.propertyId) && decide (a.tenantId = u.id)) with
        | some _ => (Except.error ⟨409, "APPLICATION_EXISTS", none⟩, s)
        | none =>
          let app := mkApplication s u input
          (Except.ok app,
            { s with applications := s.applications ++ [app], nextId := s.nextId + 1 })
    else (Except.error accessDeniedErr, s)

/-- withdrawApplication (applicationController): role guard, ownership
lookup, PENDING-only guard (the error payload carries the current status),
then the update to WITHDRAWN. -/
def withdrawApplication (user? : Option User) (applicationId : Nat) (s : Store) :
    Except ErrorResponse Application × Store :=
  match user? with
  | none => (Except.error authRequiredErr, s)
  | some u =>
    if u.role = Role.tenant then
      match s.applications.find?
          (fun a => decide (a.id = applicationId) && decide (a.tenantId = u.id)) with
      | none => (Except.error ⟨404, "APPLICATION_NOT_FOUND", none⟩, s)
      | some app =>
        if app.status = ApplicationStatus.pending then
          let newApps := s.applications.map
            (fun a => if a.id = applicationId
              then { a with status := ApplicationStatus.withdrawn } else a)
          (Except.ok { app with status := ApplicationStatus.withdrawn },
            { s with applications := newApps })
        else
          (Except.error ⟨400, "INVALID_STATUS_FOR_WITHDRAWAL", some app.status.str⟩, s)
    else (Except.error accessDeniedErr, s)

/-- Query of `prisma.application.findFirst` in updateApplicationStatus:
the application with the requested id on a property of the manager. -/
def managerAppQuery (applicationId userId : Nat) (s : Store) (a : Application) : Bool :=
  decide (a.id = applicationId) && propOwnedBy s a.propertyId userId

/-- updateApplicationStatus (applicationController): role guard, decision
allow-list {APPROVED, REJECTED}, ownership lookup, PENDING-only guard (the
error payload carries the current status), then the update. -/
def updateApplicationStatus (user? : Option User) (applicationId : Nat)
    (decision : ApplicationStatus) (s : Store) : Except ErrorResponse Application × Store :=
  match user? with
  | none => (Except.error authRequiredErr, s)
  | some u =>
    if u.role = Role.manager then
      if decision = ApplicationStatus.approved ∨ decision = ApplicationStatus.rejected then
        match s.applications.find? (managerAppQuery applicationId u.id s) with
        | none => (Except.error ⟨404, "APPLICATION_NOT_FOUND", none⟩, s)
        | some app =>
          if app.status = ApplicationStatus.pending then
            let newApps := s.applications.map
              (fun a => if a.id = applicationId then { a with status := decision } else a)
            (Except.ok { app with status := decision }, { s with applications := newApps })
          else
            (Except.error ⟨400, "INVALID_STATUS_FOR_UPDATE", some app.status.str⟩, s)
      else (Except.error ⟨400, "INVALID_STATUS", none⟩, s)
    else (Except.error accessDeniedErr, s)

/-- Query of `prisma.lease.findFirst` in createPaymentRecord: the lease
with the requested id on a property of the manager (status unconstrained). -/
def paymentLeaseQuery (leaseId userId : Nat) (s : Store) (l : Lease) : Bool :=
  decide (l.id = leaseId) && propOwnedBy s l.propertyId userId

/-- The payment row built by `prisma.payment.create` in createPaymentRecord:
tenant resolved from the lease, status PENDING, property from the input or
else from the lease. -/
def mkPayment (s : Store) (lease : Lease) (input : CreatePaymentInput) : Payment :=
  { id := s.nextId
    tenantId := lease.tenantId
    leaseId := input.leaseId
    propertyId := some (input.propertyId.getD lease.propertyId)
    amount := input.amount
    paymentType := input.paymentType
    method := input.method
    status := PaymentStatus.pending
    paymentDate := input.paymentDate
    referenceId := input.referenceId
    note := input.note }

/-- createPaymentRecord (paymentController): role guard; with a leaseId the
lease is looked up (ownership via its property) and the tenant resolved
from it; with only a propertyId the property ownership is checked but no
tenant can be resolved, so the TENANT_REQUIRED guard fires; with neither,
MISSING_REFERENCE.  Creation always produces a PENDING payment. -/
def createPaymentRecord (user? : Option User) (input : CreatePaymentInput) (s : Store) :
    Except ErrorResponse Payment × Store :=
  match user? with
  | none => (Except.error authRequiredErr, s)
  | some u =>
    if u.role = Role.manager then
      match input.leaseId with
      | some lid =>
        match s.leases.find? (paymentLeaseQuery lid u.id s) with
        | none => (Except.error ⟨404, "LEASE_NOT_FOUND", none⟩, s)
        | some lease =>
          let payment := mkPayment s lease input
          (Except.ok payment,
            { s with payments := s.payments ++ [payment], nextId := s.nextId + 1 })
      | none =>
        match input.propertyId with
        | some pid =>
          match s.properties.find?
              (fun p => decide (p.id = pid) && decide (p.managerId = u.id)) with
          | none => (Except.error ⟨404, "PROPERTY_NOT_FOUND", none⟩, s)
          | some _ => (Except.error ⟨400, "TENANT_REQUIRED", none⟩, s)
        | none => (Except.error ⟨400, "MISSING_REFERENCE", none⟩, s)
    else (Except.error accessDeniedErr, s)

/-!
Authentication middleware (src/middleware/auth.ts).  A JWT is modelled by
its decoded form: the `kid` of its header and its claims payload; whether
its RSA signature actually verifies under a given public key is a fact
about the token string recorded by the environment `sigValid`, which
`jwt.verify` would consult and `jwt.decode` does not.
-/

/-- Claims payload of a Cognito token (CognitoTokenPayload). -/
structure TokenPayload where
  sub : String
  email : String
  emailVerified : Bool
  customRole : Option String
deriving DecidableEq

/-- Decoded form of a JWT: header `kid` and claims, as `jwt.decode` with
`complete: true` returns them (no signature information). -/
structure DecodedJwt where
  headerKid : Option String
  payload : TokenPayload
deriving DecidableEq

/-- The user object the middleware attaches to the request. -/
structure AuthUser where
  id : String
  email : String
  emailVerified : Bool
  role : Role
deriving DecidableEq

/-- Prefix test on strings (the behaviour of `startsWith`), computed on the
character list so that concrete runs evaluate inside the kernel. -/
def strStartsWith (s pre : String) : Bool :=
  pre.toList.isPrefixOf s.toList

/-- Drop of the first `n` characters of a string (the behaviour of `drop`),
computed on the character list. -/
def strDrop (s : String) (n : Nat) : String :=
  String.mk (s.toList.drop n)

/-- extractUserRole: the `custom:role` claim, defaulting to tenant when the
claim is absent or not one of tenant/manager/admin. -/
def extractUserRole (p : TokenPayload) : Role :=
  match p.customRole with
  | none => Role.tenant
  | some r =>
    if r = "tenant" then Role.tenant
    else if r = "manager" then Role.manager
    else if r = "admin" then Role.admin
    else Role.tenant

/-- verifyToken (auth middleware): strips a `Bearer ` prefix, decodes the
header, requires a `kid`, looks the public key up in the cached Cognito
key set — and then returns the claims via `jwt.decode`, which performs no
signature verification; the looked-up key is never used. -/
def verifyToken (parse : String → Option DecodedJwt) (keys : List (String × String))
    (token : String) : Except String TokenPayload :=
  let token := if strStartsWith token "Bearer " then strDrop token 7 else token
  match parse token with
  | none => Except.error "Invalid token format"
  | some t =>
    match t.headerKid with
    | none => Except.error "Invalid token format"
    | some kid =>
      match keys.find? (fun k => decide (k.1 = kid)) with
      | none => Except.error "Public key not found for token"
      | some _ => Except.ok t.payload

/-- Modelled from the spec: the verification step the spec's words require
("the core trusts a decoded token's claims once signature validation
(delegated) succeeds"), i.e. what `jwt.verify(token, publicKey)` would do:
like `verifyToken` but additionally rejecting a token whose signature does
not verify under the matched public key. -/
def verifyTokenChecked (sigValid : String → String → Bool)
    (parse : String → Option DecodedJwt) (keys : List (String × String))
    (token : String) : Except String TokenPayload :=
  let token := if strStartsWith token "Bearer " then strDrop token 7 else token
  match parse token with
  | none => Except.error "Invalid token format"
  | some t =>
    match t.headerKid with
    | none => Except.error "Invalid token format"
    | some kid =>
      match keys.find? (fun k => decide (k.1 = kid)) with
      | none => Except.error "Public key not found for token"
      | some k =>
        if sigValid token k.2 then Except.ok t.payload
        else Except.error "Invalid or expired token"

/-- Mapping of verifyToken failure messages to response codes in the
authenticate catch block ("expired" before "Invalid", else AUTH_FAILED). -/
def authFailureCode (msg : String) : String :=
  if msg = "Invalid or expired token" then "AUTH_TOKEN_EXPIRED"
  else if msg = "Invalid token format" then "AUTH_TOKEN_INVALID"
  else "AUTH_FAILED"

/-- authenticate (auth middleware): requires a `Bearer ` authorization
header, runs verifyToken and on success attaches the token's claims as the
authenticated user. -/
def authenticate (parse : String → Option DecodedJwt) (keys : List (String × String))
    (authHeader : Option String) : Except ErrorResponse AuthUser :=
  match authHeader with
  | none => Except.error ⟨401, "AUTH_TOKEN_MISSING", none⟩
  | some h =>
    if strStartsWith h "Bearer " then
      match verifyToken parse keys (strDrop h 7) with
      | Except.error msg => Except.error ⟨401, authFailureCode msg, none⟩
      | Except.ok p =>
        Except.ok
          { id := p.sub
            email := p.email
            emailVerified := p.emailVerified
            role := extractUserRole p }
    else Except.error ⟨401, "AUTH_TOKEN_MISSING", none⟩

/-!
The no-overlapping-ACTIVE-leases invariant and sequential runs of the API
operations, for the reachability claims.
-/

/-- Two lease rows of one property violate the invariant when both are
ACTIVE and their date ranges overlap under the inclusive test
`start <= other.end && end >= other.start`. -/
def conflictPairB (l1 l2 : Lease) : Bool :=
  decide (l1.propertyId = l2.propertyId) && decide (l1.status = LeaseStatus.active) &&
    decide (l2.status = LeaseStatus.active) &&
    decide (l1.startDate ≤ l2.endDate) && decide (l1.endDate ≥ l2.startDate)

/-- No two distinct lease rows of the list are overlapping ACTIVE leases
of one property. -/
def noActiveOverlap : List Lease → Bool
  | [] => true
  | l :: rest => rest.all (fun l2 => !(conflictPairB l l2)) && noActiveOverlap rest

/-- One API call, with its caller and input. -/
inductive Op where
  | submit (user? : Option User) (input : CreateApplicationInput)
  | withdraw (user? : Option User) (applicationId : Nat)
  | decideApp (user? : Option User) (applicationId : Nat) (decision : ApplicationStatus)
  | newLease (user? : Option User) (input : CreateLeaseInput)
  | leaseStatus (user? : Option User) (leaseId : Nat) (reqStatus : LeaseStatus)
  | newPayment (user? : Option User) (input : CreatePaymentInput)

/-- The store after one API call (the response is discarded; a failing
call leaves the store unchanged). -/
def applyOp (s : Store) (op : Op) : Store :=
  match op with
  | .submit user? input => (submitApplication user? input s).2
  | .withdraw user? applicationId => (withdrawApplication user? applicationId s).2
  | .decideApp user? applicationId decision =>
      (updateApplicationStatus user? applicationId decision s).2
  | .newLease user? input => (createLease user? input s).2
  | .leaseStatus user? leaseId reqStatus => (updateLeaseStatus user? leaseId reqStatus s).2
  | .newPayment user? input => (createPaymentRecord user? input s).2

/-- The store after a sequential run of API calls. -/
def runOps (s : Store) (ops : List Op) : Store :=
  ops.foldl applyOp s

/-!
Concrete stores and requests used to evaluate the operations on closed
inputs: one property owned by manager 100, tenants 200/201/202.
-/

/-- Manager 100, the owner of the demo property. -/
def mgrUser : User := ⟨100, Role.manager⟩

/-- Tenant 200, the applicant of `approvedApp`. -/
def tenantA : User := ⟨200, Role.tenant⟩

/-- Tenant 201. -/
def tenantUser1 : User := ⟨201, Role.tenant⟩

/-- Tenant 202. -/
def tenantUser2 : User := ⟨202, Role.tenant⟩

/-- The demo property, owned by manager 100. -/
def demoProperty : Property := ⟨1, 100⟩

/-- An empty store holding only the demo property. -/
def store0 : Store := ⟨[demoProperty], [], [], [], 10⟩

/-- Application of tenant 201 for the demo property. -/
def appInput1 : CreateApplicationInput :=
  ⟨1, "Tenant One", "one@example.com", "0300-0000001", none⟩

/-- Application of tenant 202 for the demo property. -/
def appInput2 : CreateApplicationInput :=
  ⟨1, "Tenant Two", "two@example.com", "0300-0000002", none⟩

/-- Lease request consuming application 10, dates 0..100. -/
def leaseInput1 : CreateLeaseInput := ⟨10, 0, 100, 50000, 100000, 5, none⟩

/-- Lease request consuming application 11, dates 50..150 (overlapping
`leaseInput1`). -/
def leaseInput2 : CreateLeaseInput := ⟨11, 50, 150, 60000, 120000, 5, none⟩

/-- A sequential run: two tenants apply, both applications are approved,
both become leases (dates 0..100 and 50..150; neither is ACTIVE at
creation time, so the overlap check passes), then both are activated. -/
def overlapRun : List Op :=
  [Op.submit (some tenantUser1) appInput1,
   Op.submit (some tenantUser2) appInput2,
   Op.decideApp (some mgrUser) 10 ApplicationStatus.approved,
   Op.decideApp (some mgrUser) 11 ApplicationStatus.approved,
   Op.newLease (some mgrUser) leaseInput1,
   Op.newLease (some mgrUser) leaseInput2,
   Op.leaseStatus (some mgrUser) 12 LeaseStatus.active,
   Op.leaseStatus (some mgrUser) 13 LeaseStatus.active]

/-- An APPROVED application (id 5) of tenant 200 for the demo property. -/
def approvedApp : Application :=
  ⟨5, 1, 200, "Tenant A", "a@example.com", "0300-1234567", none, ApplicationStatus.approved⟩

/-- Store with the demo property and the approved application. -/
def baseStore : Store := ⟨[demoProperty], [approvedApp], [], [], 20⟩

/-- Submission duplicating (tenant 200, property 1). -/
def appInputA : CreateApplicationInput :=
  ⟨1, "Tenant A", "a@example.com", "0300-1234567", none⟩

/-- An ACTIVE lease (id 2) on the demo property, dates 0..100, not tied to
an application. -/
def activeLease : Lease :=
  ⟨2, 1, 200, none, 0, 100, 50000, 100000, 5, none, LeaseStatus.active⟩

/-- Store whose demo property already carries the ACTIVE lease. -/
def conflictStore : Store := ⟨[demoProperty], [approvedApp], [activeLease], [], 20⟩

/-- Lease request consuming application 5, dates 50..150. -/
def leaseInputW : CreateLeaseInput := ⟨5, 50, 150, 60000, 120000, 5, none⟩

/-- The lease created by `createLease` from `leaseInputW` on `baseStore`. -/
def l1W : Lease := mkLease baseStore approvedApp leaseInputW

/-- `baseStore` after that lease creation. -/
def s1W : Store := { baseStore with leases := baseStore.leases ++ [l1W], nextId := 21 }

/-- Activate then terminate the created lease (id 20). -/
def opsW : List Op :=
  [Op.leaseStatus (some mgrUser) 20 LeaseStatus.active,
   Op.leaseStatus (some mgrUser) 20 LeaseStatus.terminated]

/-- A second lease request naming the already-consumed application 5. -/
def in2W : CreateLeaseInput := ⟨5, 200, 300, 60000, 120000, 5, none⟩

/-- A PENDING_SIGNATURE lease (id 3) on the demo property. -/
def pendingLease : Lease :=
  ⟨3, 1, 200, some 5, 0, 100, 50000, 100000, 5, none, LeaseStatus.pendingSignature⟩

/-- Store carrying the PENDING_SIGNATURE lease. -/
def leaseStore : Store := ⟨[demoProperty], [approvedApp], [pendingLease], [], 30⟩

/-- A TERMINATED lease (id 7) on the demo property. -/
def terminatedLease : Lease :=
  ⟨7, 1, 200, none, 0, 100, 50000, 100000, 5, none, LeaseStatus.terminated⟩

/-- Store carrying only the TERMINATED lease. -/
def termStore : Store := ⟨[demoProperty], [], [terminatedLease], [], 40⟩

/-- Payment request naming only the property (no lease). -/
def payInputP : CreatePaymentInput :=
  ⟨none, some 1, 5000, PaymentType.applicationFee, PaymentMethod.cash, 10, none, none⟩

/-- Payment request naming the TERMINATED lease. -/
def payInputL : CreatePaymentInput :=
  ⟨some 7, none, 5000, PaymentType.rent, PaymentMethod.bankTransfer, 10, none, none⟩

/-- Claims of a token whose `custom:role` is manager. -/
def demoPayload : TokenPayload := ⟨"user-123", "m@example.com", true, some "manager"⟩

/-- Decoded form of the forged token: its header names key kid-1. -/
def demoJwt : DecodedJwt := ⟨some "kid-1", demoPayload⟩

/-- Decoder environment: the forged token string decodes to `demoJwt`
(base64 decoding succeeds whether or not the signature is genuine). -/
def demoParse : String → Option DecodedJwt :=
  fun s => if s = "forged.jwt.token" then some demoJwt else none

/-- Cached Cognito key set holding kid-1. -/
def demoKeys : List (String × String) := [("kid-1", "rsa-public-key")]

/-- Signature environment of the forgery: no token/key pair verifies (the
token's signature is cryptographically invalid). -/
def demoSigInvalid : String → String → Bool := fun _ _ => false

/-!
Helper lemmas: which part of the store each operation can change, the
success shape of createLease, and persistence of lease rows across runs.
-/

/-- Appending a lease that is not ACTIVE cannot break the
no-overlapping-ACTIVE-leases property. -/
theorem noActiveOverlap_append_single (xs : List Lease) (y : Lease)
    (hy : y.status ≠ LeaseStatus.active) (h : noActiveOverlap xs = true) :
    noActiveOverlap (xs ++ [y]) = true := by
  induction xs with
  | nil => simp [noActiveOverlap, conflictPairB, hy]
  | cons x xs ih =>
    simp only [noActiveOverlap, Bool.and_eq_true, List.all_eq_true] at h
    simp only [List.cons_append, noActiveOverlap, Bool.and_eq_true, List.all_eq_true]
    refine ⟨?_, ih h.2⟩
    intro l2 hl2
    rcases List.mem_append.mp hl2 with hmem | hmem
    · exact h.1 l2 hmem
    · have : l2 = y := by simpa using hmem
      subst this
      simp [conflictPairB, hy]

/-- submitApplication never touches the lease table. -/
theorem submitApplication_leases (user? : Option User) (input : CreateApplicationInput)
    (s : Store) : (submitApplication user? input s).2.leases = s.leases := by
  unfold submitApplication
  cases user? with
  | none => rfl
  | some u =>
    dsimp only
    split
    · split
      · rfl
      · split
        · rfl
        · rfl
    · rfl

/-- withdrawApplication never touches the lease table. -/
theorem withdrawApplication_leases (user? : Option User) (applicationId : Nat)
    (s : Store) : (withdrawApplication user? applicationId s).2.leases = s.leases := by
  unfold withdrawApplication
  cases user? with
  | none => rfl
  | some u =>
    dsimp only
    split
    · split
      · rfl
      · split
        · rfl
        · rfl
    · rfl

/-- updateApplicationStatus never touches the lease table. -/
theorem updateApplicationStatus_leases (user? : Option User) (applicationId : Nat)
    (decision : ApplicationStatus) (s : Store) :
    (updateApplicationStatus user? applicationId decision s).2.leases = s.leases := by
  unfold updateApplicationStatus
  cases user? with
  | none => rfl
  | some u =>
    dsimp only
    split
    · split
      · split
        · rfl
        · split
          · rfl
          · rfl
      · rfl
    · rfl

/-- createPaymentRecord never touches the lease table. -/
theorem createPaymentRecord_leases (user? : Option User) (input : CreatePaymentInput)
    (s : Store) : (createPaymentRecord user? input s).2.leases = s.leases := by
  unfold createPaymentRecord
  cases user? with
  | none => rfl
  | some u =>
    dsimp only
    split
    · split
      · split
        · rfl
        · rfl
      · split
        · split
          · rfl
          · rfl
        · rfl
    · rfl

/-- createLease leaves the lease table unchanged or appends one row. -/
theorem createLease_leases_shape (user? : Option User) (input : CreateLeaseInput) (s : Store) :
    (createLease user? input s).2.leases = s.leases ∨
      ∃ nl, (createLease user? input s).2.leases = s.leases ++ [nl] := by
  unfold createLease
  cases user? with
  | none => exact Or.inl rfl
  | some u =>
    dsimp only
    split
    · split
      · exact Or.inl rfl
      · split
        · exact Or.inl rfl
        · split
          · exact Or.inl rfl
          · exact Or.inr ⟨_, rfl⟩
    · exact Or.inl rfl

/-- updateLeaseStatus leaves the lease table unchanged or rewrites the
status of the row with the requested id. -/
theorem updateLeaseStatus_leases_shape (user? : Option User) (leaseId : Nat)
    (reqStatus : LeaseStatus) (s : Store) :
    (updateLeaseStatus user? leaseId reqStatus s).2.leases = s.leases ∨
      (updateLeaseStatus user? leaseId reqStatus s).2.leases =
        s.leases.map (fun l => if l.id = leaseId then { l with status := reqStatus } else l) := by
  unfold updateLeaseStatus
  cases user? with
  | none => exact Or.inl rfl
  | some u =>
    dsimp only
    split
    · split
      · split
        · exact Or.inl rfl
        · split
          · exact Or.inr rfl
          · exact Or.inl rfl
      · exact Or.inl rfl
    · exact Or.inl rfl

/-- A lease row referencing an application survives any API call: no
operation deletes lease rows or rewrites their application reference. -/
theorem applyOp_leaseRef (aid : Nat) (s : Store) (op : Op)
    (h : ∃ l ∈ s.leases, l.applicationId = some aid) :
    ∃ l ∈ (applyOp s op).leases, l.applicationId = some aid := by
  obtain ⟨l, hl, hid⟩ := h
  cases op with
  | submit user? input =>
    rw [applyOp, submitApplication_leases]
    exact ⟨l, hl, hid⟩
  | withdraw user? applicationId =>
    rw [applyOp, withdrawApplication_leases]
    exact ⟨l, hl, hid⟩
  | decideApp user? applicationId decision =>
    rw [applyOp, updateApplicationStatus_leases]
    exact ⟨l, hl, hid⟩
  | newPayment user? input =>
    rw [applyOp, createPaymentRecord_leases]
    exact ⟨l, hl, hid⟩
  | newLease user? input =>
    rw [applyOp]
    rcases createLease_leases_shape user? input s with heq | ⟨nl, heq⟩
    · rw [heq]; exact ⟨l, hl, hid⟩
    · rw [heq]; exact ⟨l, List.mem_append_left _ hl, hid⟩
  | leaseStatus user? leaseId reqStatus =>
    rw [applyOp]
    rcases updateLeaseStatus_leases_shape user? leaseId reqStatus s with heq | heq
    · rw [heq]; exact ⟨l, hl, hid⟩
    · rw [heq]
      refine ⟨_, List.mem_map_of_mem _ hl, ?_⟩
      by_cases hc : l.id = leaseId <;> simp [hc, hid]

/-- A lease row referencing an application survives any sequential run. -/
theorem runOps_leaseRef (aid : Nat) (ops : List Op) :
    ∀ s : Store, (∃ l ∈ s.leases, l.applicationId = some aid) →
      ∃ l ∈ (runOps s ops).leases, l.applicationId = some aid := by
  induction ops with
  | nil => intro s h; exact h
  | cons op ops ih =>
    intro s h
    exact ih (applyOp s op) (applyOp_leaseRef aid s op h)

/-- The success shape of createLease: an approved owned application was
found, the created row is `mkLease` and it is appended to the store. -/
theorem createLease_ok_shape (u : User) (input : CreateLeaseInput) (s : Store)
    (l : Lease) (s2 : Store)
    (h : createLease (some u) input s = (Except.ok l, s2)) :
    ∃ a, s.applications.find? (approvedAppQuery input.applicationId u.id s) = some a ∧
      a.id = input.applicationId ∧ l = mkLease s a input ∧
      s2 = { s with leases := s.leases ++ [l], nextId := s.nextId + 1 } := by
  by_cases hrole : u.role = Role.manager
  case neg => simp [createLease, hrole] at h
  case pos =>
    cases hfind : s.applications.find? (approvedAppQuery input.applicationId u.id s) with
    | none => simp [createLease, hrole, hfind] at h
    | some a =>
      cases hex : s.leases.find? (fun l => decide (l.applicationId = some a.id)) with
      | some c => simp [createLease, hrole, hfind, hex] at h
      | none =>
        cases hconf : s.leases.find?
            (activeOverlapQuery a.propertyId input.startDate input.endDate) with
        | some c => simp [createLease, hrole, hfind, hex, hconf] at h
        | none =>
          have haid : a.id = input.applicationId := by
            have hp := List.find?_some hfind
            simp only [approvedAppQuery, Bool.and_eq_true, decide_eq_true_eq] at hp
            exact hp.1.1
          simp only [createLease, hrole, if_true, hfind, hex, hconf, Prod.mk.injEq,
            Except.ok.injEq] at h
          obtain ⟨hl, hs⟩ := h
          cases hl
          exact ⟨a, rfl, haid, rfl, hs.symm⟩

/-!
Claim theorems.
-/

/-- Claim C1, counterexample: a sequential run of the API operations that
starts from a store satisfying the no-overlapping-ACTIVE-leases invariant
(one property, no leases) and ends in a store violating it — two
applications are approved, both become PENDING_SIGNATURE leases with
overlapping date ranges (the overlap check only inspects ACTIVE leases),
and updateLeaseStatus then activates both without rechecking overlap. -/
theorem overlapRun_reaches_two_overlapping_active_leases :
    noActiveOverlap store0.leases = true ∧
    noActiveOverlap (runOps store0 overlapRun).leases = false := by decide

/-- Claim C1 (amended): lease creation preserves the
no-overlapping-ACTIVE-leases invariant — createLease either leaves the
lease table unchanged or appends a PENDING_SIGNATURE row, which cannot
form an ACTIVE overlap.  (Activation via updateLeaseStatus does not: see
the counterexample.) -/
theorem createLease_preserves_noActiveOverlap (user? : Option User)
    (input : CreateLeaseInput) (s : Store) (h : noActiveOverlap s.leases = true) :
    noActiveOverlap ((createLease user? input s).2).leases = true := by
  unfold createLease
  cases user? with
  | none => exact h
  | some u =>
    dsimp only
    split
    · split
      · exact h
      · split
        · exact h
        · split
          · exact h
          · exact noActiveOverlap_append_single s.leases _ (by simp [mkLease]) h
    · exact h

/-- Witness for the C1 theorem: on the store with one approved application
and no leases the invariant holds, and it still holds after createLease. -/
theorem createLease_preserves_noActiveOverlap_witness :
    noActiveOverlap ((createLease (some mgrUser) leaseInputW baseStore).2).leases = true :=
  createLease_preserves_noActiveOverlap (some mgrUser) leaseInputW baseStore (by decide)

/-- Claim C2: with an approved owned application found and no lease yet
consuming it, createLease yields Conflict (LEASE_CONFLICT, store
unchanged) exactly when some ACTIVE lease of the property overlaps the
requested range under the inclusive test, and otherwise creates the
PENDING_SIGNATURE lease copying tenantId and propertyId from the
application. -/
theorem createLease_overlap_spec (u : User) (input : CreateLeaseInput) (s : Store)
    (a : Application)
    (hrole : u.role = Role.manager)
    (happ : s.applications.find? (approvedAppQuery input.applicationId u.id s) = some a)
    (hnolease : ∀ l ∈ s.leases, l.applicationId ≠ some a.id) :
    ((∃ l ∈ s.leases, l.propertyId = a.propertyId ∧ l.status = LeaseStatus.active ∧
        l.startDate ≤ input.endDate ∧ input.startDate ≤ l.endDate) →
      createLease (some u) input s = (Except.error ⟨409, "LEASE_CONFLICT", none⟩, s))
    ∧ ((∀ l ∈ s.leases, ¬(l.propertyId = a.propertyId ∧ l.status = LeaseStatus.active ∧
        l.startDate ≤ input.endDate ∧ input.startDate ≤ l.endDate)) →
      createLease (some u) input s =
        (Except.ok (mkLease s a input),
          { s with leases := s.leases ++ [mkLease s a input], nextId := s.nextId + 1 }) ∧
      (mkLease s a input).status = LeaseStatus.pendingSignature ∧
      (mkLease s a input).tenantId = a.tenantId ∧
      (mkLease s a input).propertyId = a.propertyId) := by
  have hex : s.leases.find? (fun l => decide (l.applicationId = some a.id)) = none := by
    apply List.find?_eq_none.mpr
    intro l hl
    simpa using hnolease l hl
  constructor
  · intro ⟨l, hl, hprop, hstat, h1, h2⟩
    have hsome : (s.leases.find?
        (activeOverlapQuery a.propertyId input.startDate input.endDate)).isSome := by
      apply List.find?_isSome.mpr
      refine ⟨l, hl, ?_⟩
      simp [activeOverlapQuery, hprop, hstat, h1, h2]
    obtain ⟨c, hc⟩ := Option.isSome_iff_exists.mp hsome
    simp [createLease, hrole, happ, hex, hc]
  · intro hnoconf
    have hconf : s.leases.find?
        (activeOverlapQuery a.propertyId input.startDate input.endDate) = none := by
      apply List.find?_eq_none.mpr
      intro l hl
      have := hnoconf l hl
      simp only [activeOverlapQuery, Bool.and_eq_true, decide_eq_true_eq]
      intro hcontra
      exact this ⟨hcontra.1.1.1, hcontra.1.1.2, hcontra.1.2, hcontra.2⟩
    refine ⟨?_, rfl, rfl, rfl⟩
    simp [createLease, hrole, happ, hex, hconf]

/-- Witness for the C2 theorem: an ACTIVE lease on 0..100 makes a request
for 50..150 fail with LEASE_CONFLICT. -/
theorem createLease_overlap_spec_witness :
    createLease (some mgrUser) leaseInputW conflictStore =
      (Except.error ⟨409, "LEASE_CONFLICT", none⟩, conflictStore) :=
  (createLease_overlap_spec mgrUser leaseInputW conflictStore approvedApp
    (by decide) (by decide) (by decide)).1 ⟨activeLease, by decide, by decide⟩

/-- Claim C3, counterexample: on a manager-owned ACTIVE lease, requesting
the target PENDING_SIGNATURE (not in any status's transition set) is
answered with the INVALID_STATUS validation error — not with the
INVALID_STATUS_TRANSITION error the claim requires for every disallowed
target. -/
theorem updateLeaseStatus_pending_target_counterexample :
    (updateLeaseStatus (some mgrUser) 2 LeaseStatus.pendingSignature conflictStore).1 =
      Except.error ⟨400, "INVALID_STATUS", none⟩ ∧
    "INVALID_STATUS" ≠ "INVALID_STATUS_TRANSITION" := by decide

/-- Claim C3 (amended): for a manager-owned lease, updateLeaseStatus
succeeds exactly on the table PENDING_SIGNATURE to ACTIVE/TERMINATED and
ACTIVE to TERMINATED/COMPLETED; a requested target among
ACTIVE/TERMINATED/COMPLETED outside the current status's set fails with
INVALID_STATUS_TRANSITION reporting the current status; the target
PENDING_SIGNATURE is rejected earlier as INVALID_STATUS by the request
allow-list; TERMINATED and COMPLETED admit no transition. -/
theorem updateLeaseStatus_transition_table (u : User) (leaseId : Nat)
    (reqStatus : LeaseStatus) (s : Store) (l : Lease)
    (hrole : u.role = Role.manager)
    (hfind : s.leases.find? (leaseOwnerQuery leaseId u.id s) = some l) :
    (reqStatus = LeaseStatus.pendingSignature →
      (updateLeaseStatus (some u) leaseId reqStatus s).1 =
        Except.error ⟨400, "INVALID_STATUS", none⟩)
    ∧ (reqStatus ≠ LeaseStatus.pendingSignature →
        reqStatus ∈ validTransitions l.status →
      (updateLeaseStatus (some u) leaseId reqStatus s).1 =
        Except.ok { l with status := reqStatus })
    ∧ (reqStatus ≠ LeaseStatus.pendingSignature →
        reqStatus ∉ validTransitions l.status →
      (updateLeaseStatus (some u) leaseId reqStatus s).1 =
        Except.error ⟨400, "INVALID_STATUS_TRANSITION", some l.status.str⟩)
    ∧ validTransitions LeaseStatus.terminated = []
    ∧ validTransitions LeaseStatus.completed = [] := by
  refine ⟨?_, ?_, ?_, rfl, rfl⟩
  · intro hreq
    subst hreq
    simp [updateLeaseStatus, hrole, validStatuses]
  · intro hreq hmem
    have hvalid : reqStatus ∈ validStatuses := by
      cases reqStatus <;> simp [validStatuses] at hreq ⊢
    simp [updateLeaseStatus, hrole, hvalid, hfind, hmem]
  · intro hreq hmem
    have hvalid : reqStatus ∈ validStatuses := by
      cases reqStatus <;> simp [validStatuses] at hreq ⊢
    simp [updateLeaseStatus, hrole, hvalid, hfind, hmem]

/-- Witness for the C3 theorem: activating a PENDING_SIGNATURE lease
succeeds per the table. -/
theorem updateLeaseStatus_transition_table_witness :
    (updateLeaseStatus (some mgrUser) 3 LeaseStatus.active leaseStore).1 =
      Except.ok { pendingLease with status := LeaseStatus.active } :=
  (updateLeaseStatus_transition_table mgrUser 3 LeaseStatus.active leaseStore pendingLease
    (by decide) (by decide)).2.1 (by decide) (by decide)

/-- Claim C4: once createLease succeeds from an application, any later
createLease naming the same applicationId — after any sequential run of
further API calls, so regardless of the first lease's current status —
fails with Conflict (LEASE_EXISTS), provided the approved-application
lookup still succeeds for the caller. -/
theorem createLease_consumes_application_once
    (u1 u2 : User) (in1 in2 : CreateLeaseInput) (s s1 : Store) (l1 : Lease)
    (ops : List Op) (a2 : Application)
    (h2 : u2.role = Role.manager)
    (hsucc : createLease (some u1) in1 s = (Except.ok l1, s1))
    (hsame : in2.applicationId = in1.applicationId)
    (hfind2 : (runOps s1 ops).applications.find?
        (approvedAppQuery in2.applicationId u2.id (runOps s1 ops)) = some a2) :
    createLease (some u2) in2 (runOps s1 ops) =
      (Except.error ⟨409, "LEASE_EXISTS", none⟩, runOps s1 ops) := by
  obtain ⟨a, hfind, haid, hl, hs1⟩ := createLease_ok_shape u1 in1 s l1 s1 hsucc
  have hl1mem : ∃ l ∈ s1.leases, l.applicationId = some in1.applicationId := by
    refine ⟨l1, ?_, ?_⟩
    · rw [hs1]; simp
    · rw [hl]; simp [mkLease, haid]
  obtain ⟨l2, hl2mem, hl2id⟩ := runOps_leaseRef in1.applicationId ops s1 hl1mem
  have ha2 : a2.id = in2.applicationId := by
    have hp := List.find?_some hfind2
    simp only [approvedAppQuery, Bool.and_eq_true, decide_eq_true_eq] at hp
    exact hp.1.1
  have hsome : ((runOps s1 ops).leases.find?
      (fun l => decide (l.applicationId = some a2.id))).isSome := by
    apply List.find?_isSome.mpr
    refine ⟨l2, hl2mem, ?_⟩
    simp [hl2id, ha2, hsame]
  obtain ⟨c, hc⟩ := Option.isSome_iff_exists.mp hsome
  simp [createLease, h2, hfind2, hc]

/-- Witness for the C4 theorem: after creating a lease from application 5,
activating and then terminating it, a second createLease naming
application 5 fails with LEASE_EXISTS. -/
theorem createLease_consumes_application_once_witness :
    createLease (some mgrUser) in2W (runOps s1W opsW) =
      (Except.error ⟨409, "LEASE_EXISTS", none⟩, runOps s1W opsW) :=
  createLease_consumes_application_once mgrUser mgrUser leaseInputW in2W baseStore s1W l1W
    opsW approvedApp (by decide) (by decide) (by decide) (by decide)

/-- Claim C5 (code bug): verifyToken looks the public key up but then
calls `jwt.decode`, which performs no signature verification, so
authenticate attaches the claims of a token whose signature verifies
under no key (here: the signature environment is constantly false) and
hands the request on as an authenticated manager; the spec-mandated
check (`verifyTokenChecked`, the behaviour of `jwt.verify`) rejects the
same token. -/
theorem authenticate_accepts_unverified_signature :
    authenticate demoParse demoKeys (some "Bearer forged.jwt.token") =
      Except.ok ⟨"user-123", "m@example.com", true, Role.manager⟩ ∧
    verifyTokenChecked demoSigInvalid demoParse demoKeys "forged.jwt.token" =
      Except.error "Invalid or expired token" :=
  ⟨by decide, by decide⟩

/-- Claim C6: with the property existing, submitApplication by a tenant
fails with Conflict (APPLICATION_EXISTS, store unchanged) exactly when
any application of that tenant for that property exists — its status is
unconstrained — and otherwise appends a PENDING application and returns
it. -/
theorem submitApplication_existence_guard (u : User) (input : CreateApplicationInput)
    (s : Store) (p : Property)
    (hrole : u.role = Role.tenant)
    (hprop : s.properties.find? (fun q => decide (q.id = input.propertyId)) = some p) :
    ((∃ a ∈ s.applications, a.propertyId = input.propertyId ∧ a.tenantId = u.id) →
      submitApplication (some u) input s =
        (Except.error ⟨409, "APPLICATION_EXISTS", none⟩, s))
    ∧ ((∀ a ∈ s.applications, ¬(a.propertyId = input.propertyId ∧ a.tenantId = u.id)) →
      submitApplication (some u) input s =
        (Except.ok (mkApplication s u input),
          { s with applications := s.applications ++ [mkApplication s u input], nextId := s.nextId + 1 }) ∧
      (mkApplication s u input).status = ApplicationStatus.pending) := by
  constructor
  · intro ⟨a, ha, hp, ht⟩
    have hsome : (s.applications.find?
        (fun a => decide (a.propertyId = input.propertyId) && decide (a.tenantId = u.id))).isSome := by
      apply List.find?_isSome.mpr
      exact ⟨a, ha, by simp [hp, ht]⟩
    obtain ⟨c, hc⟩ := Option.isSome_iff_exists.mp hsome
    simp [submitApplication, hrole, hprop, hc]
  · intro hnone
    have hdup : s.applications.find?
        (fun a => decide (a.propertyId = input.propertyId) && decide (a.tenantId = u.id)) = none := by
      apply List.find?_eq_none.mpr
      intro a ha
      simpa using hnone a ha
    exact ⟨by simp [submitApplication, hrole, hprop, hdup], rfl⟩

/-- Witness for the C6 theorem: tenant 200 applying again for property 1,
where an APPROVED application of theirs exists, gets APPLICATION_EXISTS. -/
theorem submitApplication_existence_guard_witness :
    submitApplication (some tenantA) appInputA baseStore =
      (Except.error ⟨409, "APPLICATION_EXISTS", none⟩, baseStore) :=
  (submitApplication_existence_guard tenantA appInputA baseStore demoProperty
    (by decide) (by decide)).1 ⟨approvedApp, by decide, by decide⟩

/-- Claim C7: on a visible application, withdraw (tenant) and decide
(manager, decision APPROVED or REJECTED) succeed exactly when the current
status is PENDING; any other current status is answered with the 400
invalid-transition error whose payload carries the current status
string. -/
theorem application_pending_guard (t m : User) (applicationId : Nat) (s : Store)
    (a b : Application) (decision : ApplicationStatus)
    (hts : t.role = Role.tenant) (hms : m.role = Role.manager)
    (hdec : decision = ApplicationStatus.approved ∨ decision = ApplicationStatus.rejected)
    (hfa : s.applications.find?
      (fun x => decide (x.id = applicationId) && decide (x.tenantId = t.id)) = some a)
    (hfb : s.applications.find? (managerAppQuery applicationId m.id s) = some b) :
    ((a.status = ApplicationStatus.pending →
        (withdrawApplication (some t) applicationId s).1 =
          Except.ok { a with status := ApplicationStatus.withdrawn })
     ∧ (a.status ≠ ApplicationStatus.pending →
        (withdrawApplication (some t) applicationId s).1 =
          Except.error ⟨400, "INVALID_STATUS_FOR_WITHDRAWAL", some a.status.str⟩))
    ∧ ((b.status = ApplicationStatus.pending →
        (updateApplicationStatus (some m) applicationId decision s).1 =
          Except.ok { b with status := decision })
     ∧ (b.status ≠ ApplicationStatus.pending →
        (updateApplicationStatus (some m) applicationId decision s).1 =
          Except.error ⟨400, "INVALID_STATUS_FOR_UPDATE", some b.status.str⟩)) := by
  refine ⟨⟨?_, ?_⟩, ?_, ?_⟩
  · intro hp
    simp [withdrawApplication, hts, hfa, hp]
  · intro hp
    simp [withdrawApplication, hts, hfa, hp]
  · intro hp
    simp [updateApplicationStatus, hms, hdec, hfb, hp]
  · intro hp
    simp [updateApplicationStatus, hms, hdec, hfb, hp]

/-- Witness for the C7 theorem: withdrawing the already APPROVED
application 5 fails and the payload reports APPROVED. -/
theorem application_pending_guard_witness :
    (withdrawApplication (some tenantA) 5 baseStore).1 =
      Except.error ⟨400, "INVALID_STATUS_FOR_WITHDRAWAL", some "APPROVED"⟩ :=
  (application_pending_guard tenantA mgrUser 5 baseStore approvedApp approvedApp
    ApplicationStatus.approved (by decide) (by decide) (Or.inl rfl)
    (by decide) (by decide)).1.2 (by decide)

/-- Claim C8: a successful createLease changes nothing but the lease
table — the application table (so the originating application, still
APPROVED), the properties and the payments are untouched, and the lease
table only gains the created row. -/
theorem createLease_application_frame (user? : Option User) (input : CreateLeaseInput)
    (s : Store) (l : Lease) (s2 : Store)
    (hsucc : createLease user? input s = (Except.ok l, s2)) :
    s2.applications = s.applications ∧ s2.properties = s.properties ∧
      s2.payments = s.payments ∧ s2.leases = s.leases ++ [l] := by
  cases user? with
  | none => simp [createLease] at hsucc
  | some u =>
    obtain ⟨a, hfind, haid, hl, hs2⟩ := createLease_ok_shape u input s l s2 hsucc
    rw [hs2]
    exact ⟨rfl, rfl, rfl, rfl⟩

/-- Witness for the C8 theorem: the successful creation on `baseStore`
leaves applications, properties and payments unchanged and appends the
lease. -/
theorem createLease_application_frame_witness :
    ((createLease (some mgrUser) leaseInputW baseStore).2).applications = baseStore.applications ∧
    ((createLease (some mgrUser) leaseInputW baseStore).2).properties = baseStore.properties ∧
    ((createLease (some mgrUser) leaseInputW baseStore).2).payments = baseStore.payments ∧
    ((createLease (some mgrUser) leaseInputW baseStore).2).leases = baseStore.leases ++ [l1W] :=
  createLease_application_frame (some mgrUser) leaseInputW baseStore l1W
    ((createLease (some mgrUser) leaseInputW baseStore).2) (by decide)

/-- Claim C9: a payment request with a propertyId but no leaseId (the
property being owned by the manager) fails with the TENANT_REQUIRED
validation error and creates nothing; and every successful
createPaymentRecord resolved its tenant from the lease named by its
leaseId. -/
theorem createPaymentRecord_tenant_resolution (u : User) (input : CreatePaymentInput)
    (s : Store) (hrole : u.role = Role.manager) :
    (input.leaseId = none →
      ∀ pid p, input.propertyId = some pid →
        s.properties.find?
          (fun q => decide (q.id = pid) && decide (q.managerId = u.id)) = some p →
        createPaymentRecord (some u) input s =
          (Except.error ⟨400, "TENANT_REQUIRED", none⟩, s))
    ∧ (∀ pay s2, createPaymentRecord (some u) input s = (Except.ok pay, s2) →
        ∃ lid lease, input.leaseId = some lid ∧
          s.leases.find? (paymentLeaseQuery lid u.id s) = some lease ∧
          pay.tenantId = lease.tenantId) := by
  constructor
  · intro hnone pid p hpid hfp
    simp [createPaymentRecord, hrole, hnone, hpid, hfp]
  · intro pay s2 hok
    cases hlid : input.leaseId with
    | none =>
      cases hpid : input.propertyId with
      | none => simp [createPaymentRecord, hrole, hlid, hpid] at hok
      | some pid =>
        cases hfp : s.properties.find?
            (fun q => decide (q.id = pid) && decide (q.managerId = u.id)) with
        | none => simp [createPaymentRecord, hrole, hlid, hpid, hfp] at hok
        | some p => simp [createPaymentRecord, hrole, hlid, hpid, hfp] at hok
    | some lid =>
      cases hfind : s.leases.find? (paymentLeaseQuery lid u.id s) with
      | none => simp [createPaymentRecord, hrole, hlid, hfind] at hok
      | some lease =>
        simp only [createPaymentRecord, hrole, if_true, hlid, hfind, Prod.mk.injEq,
          Except.ok.injEq] at hok
        refine ⟨lid, lease, rfl, hfind, ?_⟩
        rw [← hok.1]
        rfl

/-- Witness for the C9 theorem: a property-only payment request on the
manager's property 1 fails with TENANT_REQUIRED and the store is
unchanged. -/
theorem createPaymentRecord_tenant_resolution_witness :
    createPaymentRecord (some mgrUser) payInputP baseStore =
      (Except.error ⟨400, "TENANT_REQUIRED", none⟩, baseStore) :=
  (createPaymentRecord_tenant_resolution mgrUser payInputP baseStore (by decide)).1
    rfl 1 demoProperty rfl (by decide)

/-- Claim C10: createPaymentRecord never inspects the status of the
referenced lease — for any owned lease found under the payment query,
whatever its status, the payment is created in status PENDING and
appended. -/
theorem createPaymentRecord_any_lease_status (u : User) (input : CreatePaymentInput)
    (lid : Nat) (s : Store) (lease : Lease)
    (hrole : u.role = Role.manager) (hlid : input.leaseId = some lid)
    (hfind : s.leases.find? (paymentLeaseQuery lid u.id s) = some lease) :
    createPaymentRecord (some u) input s =
      (Except.ok (mkPayment s lease input),
        { s with payments := s.payments ++ [mkPayment s lease input], nextId := s.nextId + 1 }) ∧
    (mkPayment s lease input).status = PaymentStatus.pending :=
  ⟨by simp [createPaymentRecord, hrole, hlid, hfind], rfl⟩

/-- Witness for the C10 theorem: a payment against the TERMINATED lease 7
succeeds and is created in status PENDING. -/
theorem createPaymentRecord_any_lease_status_witness :
    terminatedLease.status = LeaseStatus.terminated ∧
    createPaymentRecord (some mgrUser) payInputL termStore =
      (Except.ok (mkPayment termStore terminatedLease payInputL),
        { termStore with payments := termStore.payments ++ [mkPayment termStore terminatedLease payInputL], nextId := 41 }) ∧
    (mkPayment termStore terminatedLease payInputL).status = PaymentStatus.pending :=
  ⟨by decide,
    createPaymentRecord_any_lease_status mgrUser payInputL 7 termStore terminatedLease
      (by decide) (by decide) (by decide)⟩
